import Mathlib

/-!
Verification of the NaTGenPD heat-rate pipeline (`NaTGenPD/filter.py`).

The development shallowly embeds the three core components of `filter.py`:

* `Filter.filter_group` parameter derivation (`total_points`, `min_samples`,
  `points_threshold`);
* `PolyFit.extract_fit` (polynomial fit row assembly around the external
  `np.polyfit` call);
* `FitFilter` (`_get_hr_min`, `_min_hr_filter`, `_filter`, `_filer_CCs`,
  `filter`), the cross-unit statistical outlier rejection.

Tabular data (pandas DataFrames / Series) is modelled as association lists
from column names to cells; a cell is a missing value (NaN/None), a rational
number (exact stand-in for a float), or a string.  The external least-squares
solver `np.polyfit` is modelled by passing its outcome — either an exception
or a coefficient list together with the reported rank of the design
(Vandermonde) matrix — as an explicit argument.  The standard deviation
computed by `ndarray.std()` is irrational in general, so the embedding passes
it as an explicit argument `sd`; theorems constrain it by `0 ≤ sd` and
`sd ^ 2 = listVar values`, which characterises the float `values.std()`
exactly.
-/

namespace NaTGenPD

/-- One cell of a pandas DataFrame/Series: missing (`None`/`NaN`), a numeric
value (modelled exactly as a rational), or a string. -/
inductive Cell where
  | null : Cell
  | num : ℚ → Cell
  | str : String → Cell
deriving DecidableEq

/-- Numeric view of a cell: `some q` for a number, `none` otherwise. -/
def Cell.toQ : Cell → Option ℚ
  | Cell.num q => some q
  | _ => none

/-- `pandas.isnull` on a single cell. -/
def Cell.isNull : Cell → Bool
  | Cell.null => true
  | _ => false

/-- A table row: association list from column names to cells. -/
abbrev Row := List (String × Cell)

/-- A table: list of rows. -/
abbrev Table := List Row

/-- `ndarray.min()` of a nonempty list (`0` on the empty list, which the code
never queries). -/
def listMin : List ℚ → ℚ
  | [] => 0
  | x :: xs => xs.foldl min x

/-- `ndarray.max()` of a nonempty list (`0` on the empty list, which the code
never queries). -/
def listMax : List ℚ → ℚ
  | [] => 0
  | x :: xs => xs.foldl max x

/-- `ndarray.mean()`: arithmetic mean (division by zero yields `0` in `ℚ`;
the empty case is handled separately where it matters, mirroring NaN). -/
def listMean (xs : List ℚ) : ℚ := xs.sum / xs.length

/-- `ndarray.var()` with `ddof = 0`, the square of `ndarray.std()`. -/
def listVar (xs : List ℚ) : ℚ :=
  ((xs.map (fun x => (x - listMean xs) ^ 2)).sum) / xs.length

/-- `np.linspace a b n`: `n` evenly spaced samples from `a` to `b`
inclusive (`[a]` for `n = 1`, `[]` for `n = 0`). -/
def linspace (a b : ℚ) (n : ℕ) : List ℚ :=
  if n ≤ 1 then (List.range n).map (fun _ : ℕ => a)
  else (List.range n).map (fun i : ℕ => a + (b - a) * (i : ℚ) / ((n : ℚ) - 1))

/-- Evaluation of `np.poly1d cs` at `x`: coefficients ordered from the
highest power down to the constant term (Horner scheme). -/
def polyval (cs : List ℚ) (x : ℚ) : ℚ :=
  cs.foldl (fun acc c => acc * x + c) 0

/-- `s.startswith(pre)` on strings (via the underlying character lists, kept
kernel-reducible). -/
def strHasPrefix (pre s : String) : Bool :=
  pre.toList.isPrefixOf s.toList

/-- Python `pat in s` substring containment. -/
def strContains (s pat : String) : Bool :=
  s.toList.tails.any (fun t => pat.toList.isPrefixOf t)

/-- `s.split(c)[0]`: the longest prefix of `s` before the first occurrence of
the separator `c` (the whole string when `c` does not occur). -/
def splitHead (s : String) (c : Char) : String :=
  String.mk (s.toList.takeWhile (fun a => decide (a ≠ c)))

/-!
## `PolyFit.extract_fit`

`np.polyfit(load, heat_rate, order, full=True)` is external to the
repository; its outcome is passed in as `fit : Except Unit (List ℚ × ℕ)`,
either an exception or `(coefficients, rank)` where `rank` is the reported
rank of the scaled Vandermonde design matrix.  In exact arithmetic that rank
equals `min (number of distinct load values) (order + 1)`, which
`polyfitRank` records so that concrete instantiations of `fit` can be tied
to their inputs.
-/

set_option linter.unusedVariables false

/-- Rank of the Vandermonde design matrix that `np.polyfit` reports for a
degree-`order` fit: `min (#distinct sample positions) (order + 1)`. -/
def polyfitRank (load : List ℚ) (order : ℕ) : ℕ :=
  min load.dedup.length (order + 1)

/-- The hard-coded coefficient index `['a4', 'a3', 'a2', 'a1', 'a0']` of
`extract_fit`. -/
def aLabels : List String := ["a4", "a3", "a2", "a1", "a0"]

/-- The load-sample index `['load_1', ..., 'load_points']` with the first
entry renamed `load_min` and the last renamed `load_max`. -/
def loadLabels (points : ℕ) : List String :=
  (List.range points).map (fun i =>
    if i = points - 1 then "load_max"
    else if i = 0 then "load_min"
    else "load_" ++ toString (i + 1))

/-- `pd.Series(data, index=labels)`: an all-null series when `data` is
`None`, otherwise the labels paired with the numeric data. -/
def series (labels : List String) (data : Option (List ℚ)) : Row :=
  match data with
  | none => labels.map (fun l => (l, Cell.null))
  | some xs => labels.zip (xs.map Cell.num)

/-- `series[name] = v`: overwrite the entry with the given label, or append
a new entry when the label is absent (pandas item assignment). -/
def setEntry (row : Row) (name : String) (v : Cell) : Row :=
  if row.any (fun p => decide (p.1 = name)) then
    row.map (fun p => if p.1 = name then (name, v) else p)
  else row ++ [(name, v)]

/-- A possibly-missing rational as a cell. -/
def optCell : Option ℚ → Cell
  | some q => Cell.num q
  | none => Cell.null

/-- `load.min()` as a domain bound: undefined on an empty load array. -/
def boundMin (load : List ℚ) : Option ℚ :=
  if load.isEmpty then none else some (listMin load)

/-- `load.max()` as a domain bound: undefined on an empty load array. -/
def boundMax (load : List ℚ) : Option ℚ :=
  if load.isEmpty then none else some (listMax load)

/-- `load_range = np.linspace(load_min, load_max, points)`, computed only
when a fit was accepted and the bounds exist. -/
def fitLoadRange (fit_params : Option (List ℚ)) (load_min load_max : Option ℚ)
    (points : ℕ) : Option (List ℚ) :=
  match fit_params, load_min, load_max with
  | some _, some lmin, some lmax => some (linspace lmin lmax points)
  | _, _, _ => none

/-- `hr_range = np.poly1d(fit_params)(load_range)`. -/
def fitHrRange (fit_params : Option (List ℚ)) (load_range : Option (List ℚ)) :
    Option (List ℚ) :=
  match fit_params, load_range with
  | some c, some lr => some (lr.map (polyval c))
  | _, _ => none

/-- The `unit_load` series of `extract_fit`: the resampled loads under the
relabelled index, with `load_min`/`load_max` overwritten by the bounds and
`total_load` and `min_gen_perc = load_min / load_max` appended. -/
def loadSeries (load : List ℚ) (fit_params : Option (List ℚ))
    (load_min load_max : Option ℚ) (points : ℕ) : Row :=
  setEntry (setEntry (series (loadLabels points)
      (fitLoadRange fit_params load_min load_max points))
      "load_min" (optCell load_min))
    "load_max" (optCell load_max)
    ++ [("total_load", Cell.num load.sum),
        ("min_gen_perc",
          match load_min, load_max with
          | some a, some b => Cell.num (a / b)
          | _, _ => Cell.null)]

/-- The `unit_hr` series of `extract_fit`: the heat rates of the resampled
curve under the `heat_rate(...)` index. -/
def hrSeries (fit_params : Option (List ℚ)) (load_min load_max : Option ℚ)
    (points : ℕ) : Row :=
  series ((loadLabels points).map (fun l => "heat_rate(" ++ l ++ ")"))
    (fitHrRange fit_params (fitLoadRange fit_params load_min load_max points))

/-- Assembly of the `extract_fit` output row from the fit parameters
(`None` when no fit was accepted) and the domain bounds:
`pd.concat([unit_fit, unit_load, unit_hr])`. -/
def mkFitRow (load : List ℚ) (fit_params : Option (List ℚ))
    (load_min load_max : Option ℚ) (points : ℕ) : Row :=
  series aLabels fit_params
    ++ loadSeries load fit_params load_min load_max points
    ++ hrSeries fit_params load_min load_max points

/-- The coefficients `extract_fit` records: `None` unless the load array is
nonempty, the solver did not raise, and the reported rank exceeds `1`
(`fit[2] > 1` in the source). -/
def acceptedParams (load : List ℚ) (fit : Except Unit (List ℚ × ℕ)) :
    Option (List ℚ) :=
  if load.isEmpty then none
  else
    match fit with
    | Except.ok (c, r) => if 1 < r then some c else none
    | Except.error _ => none

/-- `PolyFit.extract_fit`.  Constructing
`pd.Series(fit_params, index=['a4', ..., 'a0'])` raises a `ValueError`
whenever accepted coefficients do not number exactly `5`, which the
embedding surfaces as `Except.error`; every other path returns a row.  The
`heat_rate` and `order` arguments flow only into the external solver. -/
def extract_fit (load heat_rate : List ℚ) (order points : ℕ)
    (fit : Except Unit (List ℚ × ℕ)) : Except String Row :=
  match acceptedParams load fit with
  | some c =>
    if c.length = 5 then
      Except.ok (mkFitRow load (some c) (boundMin load) (boundMax load) points)
    else Except.error "ValueError"
  | none => Except.ok (mkFitRow load none (boundMin load) (boundMax load) points)

/-- The five leading (coefficient) cells of a fit row. -/
def coeffCells (row : Row) : List Cell := (row.take 5).map Prod.snd

/-- The row of a non-raising `extract_fit` call (`[]` on the raising path). -/
def okRow : Except String Row → Row
  | Except.ok r => r
  | Except.error _ => []

/-- Whether an `extract_fit` call returned a row rather than raising. -/
def isOkE : Except String Row → Bool
  | Except.ok _ => true
  | Except.error _ => false

/-- The message of a raising `extract_fit` call (`none` when a row was
returned). -/
def errMsg : Except String Row → Option String
  | Except.ok _ => none
  | Except.error s => some s

/-!
## `FitFilter`

Fit tables are loaded from CSV: one row per fitted unit (or per unit/regime
for combined-cycle groups), with a `unit_id` column, coefficient columns
`a4..a0`, `load_min`/`load_max`/`load_i` samples, `heat_rate(...)` samples,
`total_load`, `min_gen_perc` and string metadata columns.
`_filter` round-trips the frame through `set_index('unit_id')` /
`reset_index()` (and `_filer_CCs` through `set_index('cc_id')` /
`reset_index(drop=True)`), which only moves the index column; the embedding
keeps rows as plain association lists, so that round-trip is the identity.
-/

/-- `row[name]` on a keyed row (missing columns read as null; the fit tables
always carry the columns the code looks up). -/
def cellAt (row : Row) (name : String) : Cell :=
  match row.find? (fun p => decide (p.1 = name)) with
  | some p => p.2
  | none => Cell.null

/-- The resampled heat-rate curve used by `FitFilter._get_hr_min`: when every
coefficient column (name starting with `'a'`) is numeric and the domain
bounds are present, the polynomial evaluated at `points` evenly spaced loads
between `load_min` and `load_max`; otherwise `none` (a null coefficient means
no fit).  Fit-table coefficient cells are always numeric or null. -/
def rowSamples (row : Row) (points : ℕ) : Option (List ℚ) :=
  let params := row.filter (fun p => strHasPrefix "a" p.1)
  if params.all (fun p => p.2.toQ.isSome) then
    match (cellAt row "load_min").toQ, (cellAt row "load_max").toQ with
    | some lmin, some lmax =>
      some ((linspace lmin lmax points).map
        (polyval (params.filterMap (fun p => p.2.toQ))))
    | _, _ => none
  else none

/-- `FitFilter._get_hr_min`: the minimum of the resampled heat-rate curve,
discarded (`None`) when it falls below the physical floor `4.5` or when the
row has no valid fit. -/
def get_hr_min (row : Row) (points : ℕ) : Option ℚ :=
  match rowSamples row points with
  | some s => if listMin s < 9 / 2 then none else some (listMin s)
  | none => none

/-- The pre-statistics trimming of `_min_hr_filter`: values not strictly
above `threshold[0]` and values not strictly below `threshold[1]` are
dropped before the mean and standard deviation are computed. -/
def trimVals (vals : List ℚ) (threshold : Option ℚ × Option ℚ) : List ℚ :=
  let v1 :=
    match threshold.1 with
    | some t => vals.filter (fun x => decide (t < x))
    | none => vals
  match threshold.2 with
  | some t => v1.filter (fun x => decide (x < t))
  | none => v1

/-- The lower band edge of `_min_hr_filter`: the hard threshold when given,
otherwise `mean - k * std` of the trimmed values.  When the trimmed
population is empty, numpy's mean and std are NaN and every comparison with
NaN is false, modelled as an absent (`none`) edge. -/
def lowEdge (vals : List ℚ) (k sd : ℚ) (threshold : Option ℚ × Option ℚ) :
    Option ℚ :=
  match threshold.1 with
  | some t => some t
  | none => if vals.isEmpty then none else some (listMean vals - k * sd)

/-- The upper band edge of `_min_hr_filter`: the hard threshold when given,
otherwise `mean + k * std` of the trimmed values (absent when the trimmed
population is empty, mirroring NaN comparisons). -/
def highEdge (vals : List ℚ) (k sd : ℚ) (threshold : Option ℚ × Option ℚ) :
    Option ℚ :=
  match threshold.2 with
  | some t => some t
  | none => if vals.isEmpty then none else some (listMean vals + k * sd)

/-- `min_hr.values < thresh[0]  or  min_hr.values > thresh[1]` for one
value (an absent edge never fires). -/
def outOfBand (lo hi : Option ℚ) (x : ℚ) : Bool :=
  (match lo with | some t => decide (x < t) | none => false) ||
  (match hi with | some t => decide (t < x) | none => false)

/-- `FitFilter._min_hr_filter`: the index labels of the minimum-heat-rate
series whose value falls strictly outside the acceptance band.  `sd` stands
for the float `min_hr_values.std()` of the trimmed values; theorems
constrain it by `0 ≤ sd` and `sd ^ 2 = listVar (trimVals ...)`. -/
def min_hr_filter (min_hr : List (String × ℚ)) (stdev_multiplier : ℚ)
    (threshold : Option ℚ × Option ℚ) (sd : ℚ) : List String :=
  let vals := trimVals (min_hr.map Prod.snd) threshold
  let lo := lowEdge vals stdev_multiplier sd threshold
  let hi := highEdge vals stdev_multiplier sd threshold
  (min_hr.filter (fun p => outOfBand lo hi p.2)).map Prod.fst

/-- The string value of the `unit_id` column. -/
def rowUnitId (row : Row) : String :=
  match cellAt row "unit_id" with
  | Cell.str s => s
  | _ => ""

/-- `group_df.apply(FitFilter._get_hr_min, axis=1).dropna()` keyed by
`unit_id` (the `points` argument keeps its default `100`). -/
def minHrSeries (group_df : Table) : List (String × ℚ) :=
  group_df.filterMap
    (fun row => (get_hr_min row 100).map (fun m => (rowUnitId row, m)))

/-- Membership in `filter_cols`: names starting with `'a'`, `'heat_rate'`
or `'load'`, excluding `load_min` and `load_max`. -/
def filterColsPred (c : String) : Bool :=
  (strHasPrefix "a" c || strHasPrefix "heat_rate" c || strHasPrefix "load" c)
    && !(decide (c = "load_min")) && !(decide (c = "load_max"))

/-- `group_df.loc[failed, filter_cols] = None` on one failed row. -/
def nullFilterCols (row : Row) : Row :=
  row.map (fun p => if filterColsPred p.1 then (p.1, Cell.null) else p)

/-- `FitFilter._filter`: invalidate (in place) the fit columns of every unit
whose minimum heat rate fails the statistical band. -/
def FitFilter_filter (group_df : Table) (stdev_multiplier : ℚ)
    (threshold : Option ℚ × Option ℚ) (sd : ℚ) : Table :=
  let failed := min_hr_filter (minHrSeries group_df) stdev_multiplier threshold sd
  group_df.map (fun row =>
    if failed.any (fun u => decide (u = rowUnitId row)) then nullFilterCols row
    else row)

/-- `cc_df['unit_id'].str.split('-').str[0]`: the composite CC key is the
prefix of the fit id before the first hyphen. -/
def ccId (row : Row) : String := splitHead (rowUnitId row) '-'

/-- The per-row minima of a CC fit table keyed by `cc_id`
(`cc_df.apply(FitFilter._get_hr_min, axis=1).dropna()` after
`set_index('cc_id')`). -/
def ccMinHr (cc_df : Table) : List (String × ℚ) :=
  cc_df.filterMap
    (fun row => (get_hr_min row 100).map (fun m => (ccId row, m)))

/-- `groupby('cc_id').min()`: one entry per distinct key carrying the
minimum of that key's values (keys in first-appearance order; the band
statistics and the failed set do not depend on the order). -/
def groupMin (xs : List (String × ℚ)) : List (String × ℚ) :=
  (xs.map Prod.fst).dedup.map
    (fun u => (u, listMin ((xs.filter (fun p => decide (p.1 = u))).map Prod.snd)))

/-- `FitFilter._filer_CCs`: aggregate per-row minima by `cc_id` taking the
minimum, reject against the band with hard thresholds `(None, cut_off)`,
and invalidate the fit columns of every row of each failed CC unit. -/
def filer_CCs (cc_df : Table) (cut_off stdev_multiplier sd : ℚ) : Table :=
  let failed :=
    min_hr_filter (groupMin (ccMinHr cc_df)) stdev_multiplier
      (none, some cut_off) sd
  cc_df.map (fun row =>
    if failed.any (fun u => decide (u = ccId row)) then nullFilterCols row
    else row)

/-- `np.sum(~group_df['a0'].isnull())`: the number of rows with a fitted
constant coefficient. -/
def fitUnits (group_df : Table) : ℕ :=
  (group_df.filter (fun row => !(cellAt row "a0").isNull)).length

/-- One group iteration of `FitFilter.filter`: apply `_filer_CCs` to CC
groups and `_filter` otherwise, but only when the number of fitted units
strictly exceeds `min_units`; smaller groups pass through unchanged. -/
def filterGroupFits (g_type : String) (group_df : Table) (min_units : ℕ)
    (cut_off stdev_multiplier : ℚ) (threshold : Option ℚ × Option ℚ)
    (sd : ℚ) : Table :=
  if min_units < fitUnits group_df then
    if strContains g_type "CC" then
      filer_CCs group_df cut_off stdev_multiplier sd
    else FitFilter_filter group_df stdev_multiplier threshold sd
  else group_df

/-!
## `Filter.filter_group` parameter derivation
-/

/-- `Filter.total_points`: one expected sample per hour of data. -/
def total_points (years : ℕ) : ℕ := years * 8760

/-- `min_samples = int(total_points / 1000)` of `Filter.filter_group`. -/
def min_samples (years : ℕ) : ℕ := total_points years / 1000

/-- `threshold = int(total_points / 100)` of `Filter.filter_group`: the
minimum number of observed points a unit needs to be filtered. -/
def points_threshold (years : ℕ) : ℕ := total_points years / 100

/-!
## Concrete fit tables used by witnesses and counterexamples

The rows carry the columns the outlier-rejection code reads: `unit_id`, a
coefficient column `a0` (a constant heat-rate curve, so the resampled
minimum equals the coefficient) and the domain bounds. -/

/-- A fit row with a constant heat-rate polynomial of value `v`. -/
def constRow (uid : String) (v : ℚ) : Row :=
  [("unit_id", Cell.str uid), ("a0", Cell.num v),
   ("load_min", Cell.num 1), ("load_max", Cell.num 1)]

/-- A fit row with a null constant coefficient (no valid fit). -/
def nullRow (uid : String) : Row :=
  [("unit_id", Cell.str uid), ("a0", Cell.null),
   ("load_min", Cell.num 1), ("load_max", Cell.num 1)]

/-- A two-row combined-cycle fit table whose fit ids use the underscore of
CEMS composite identifiers (`plant_subunit`), not the hyphen separator. -/
def ccUnderscoreTable : Table :=
  [constRow "7_0" (36 / 5), constRow "7_1" (89 / 10)]

/-- A combined-cycle fit table with two regime rows of CC unit `7` (fit ids
`7-0`, `7-1`, per-row minima `7.2` and `9.5`) and one row of CC unit `5`
(minimum `20`). -/
def ccHyphenTable : Table :=
  [constRow "7-0" (36 / 5), constRow "7-1" (19 / 2), constRow "5" 20]

/-- Minimum-heat-rate population `{u0 ↦ 0, u4 ↦ 4, uB1 ↦ 5.5, uB2 ↦ 5.5}`:
its mean is `15/4` and its standard deviation `9/4`, while the values
surviving an upper hard threshold of `5` have mean `2` and standard
deviation `2`. -/
def thrPop : List (String × ℚ) := [("u0", 0), ("u4", 4), ("uB1", 11 / 2), ("uB2", 11 / 2)]

/-- A nine-unit fit table with constant-curve minima
`40, ..., 46, 5, 81`: mean `43`, standard deviation `18`. -/
def nineTable : Table :=
  [constRow "u1" 40, constRow "u2" 41, constRow "u3" 42, constRow "u4" 43,
   constRow "u5" 44, constRow "u6" 45, constRow "u7" 46, constRow "u8" 5,
   constRow "u9" 81]

/-- A two-unit fit table with minima `10` and `12` (mean `11`, standard
deviation `1`): with multiplier `2` the band `[9, 13]` rejects nothing. -/
def pairTable : Table := [constRow "w1" 10, constRow "w2" 12]

/-- A 150-row fit table: `80` units with minimum `10`, `20` units with
minimum `20`, and `50` rows with null coefficients.  Exactly `100` rows are
fitted; their minima have mean `12` and standard deviation `4`. -/
def bigTable : Table :=
  List.replicate 80 (constRow "uA" 10) ++ List.replicate 20 (constRow "uB" 20)
    ++ List.replicate 50 (nullRow "uN")

/-- A fit row with the quartic coefficients of the constant polynomial `7`
over the domain `[1, 2]`. -/
def quarticRow : Row :=
  [("unit_id", Cell.str "w"), ("a4", Cell.num 0), ("a3", Cell.num 0),
   ("a2", Cell.num 0), ("a1", Cell.num 0), ("a0", Cell.num 7),
   ("load_min", Cell.num 1), ("load_max", Cell.num 2)]

/-- A fit row whose constant coefficient is missing. -/
def missingCoeffRow : Row :=
  [("unit_id", Cell.str "m"), ("a0", Cell.null),
   ("load_min", Cell.num 1), ("load_max", Cell.num 2)]

/-!
## Auxiliary lemmas
-/

theorem foldl_min_le_init (l : List ℚ) (a : ℚ) : l.foldl min a ≤ a := by
  induction l generalizing a with
  | nil => exact le_refl a
  | cons x xs ih => exact le_trans (ih (min a x)) (min_le_left a x)

theorem foldl_min_le_mem (l : List ℚ) (a x : ℚ) (hx : x ∈ l) :
    l.foldl min a ≤ x := by
  induction l generalizing a with
  | nil => cases hx
  | cons y ys ih =>
    rcases List.mem_cons.mp hx with h | h
    · subst h
      exact le_trans (foldl_min_le_init ys (min a x)) (min_le_right a x)
    · exact ih (min a y) h

theorem foldl_min_mem (l : List ℚ) (a : ℚ) :
    l.foldl min a = a ∨ l.foldl min a ∈ l := by
  induction l generalizing a with
  | nil => exact Or.inl rfl
  | cons x xs ih =>
    rcases ih (min a x) with h | h
    · rcases min_choice a x with h2 | h2
      · exact Or.inl (by rw [List.foldl_cons, h, h2])
      · exact Or.inr (by rw [List.foldl_cons, h, h2]; exact List.mem_cons_self x xs)
    · exact Or.inr (List.mem_cons_of_mem x h)

theorem listMin_mem (l : List ℚ) (h : l ≠ []) : listMin l ∈ l := by
  match l with
  | [] => exact absurd rfl h
  | x :: xs =>
    rcases foldl_min_mem xs x with h2 | h2
    · rw [listMin, h2]; exact List.mem_cons_self x xs
    · rw [listMin]; exact List.mem_cons_of_mem x h2

theorem listMin_le (l : List ℚ) (x : ℚ) (hx : x ∈ l) : listMin l ≤ x := by
  match l with
  | [] => cases hx
  | y :: ys =>
    rcases List.mem_cons.mp hx with h | h
    · subst h; exact foldl_min_le_init ys x
    · exact foldl_min_le_mem ys y x h

theorem filterMap_replicate_some {α β : Type} (f : α → Option β) (a : α)
    (b : β) (h : f a = some b) (n : ℕ) :
    (List.replicate n a).filterMap f = List.replicate n b := by
  induction n with
  | zero => rfl
  | succ n ih => simp [List.replicate_succ, List.filterMap_cons, h, ih]

theorem filterMap_replicate_none {α β : Type} (f : α → Option β) (a : α)
    (h : f a = none) (n : ℕ) :
    (List.replicate n a).filterMap f = [] := by
  induction n with
  | zero => rfl
  | succ n ih => simp [List.replicate_succ, List.filterMap_cons, h, ih]

theorem filter_replicate_pos {α : Type} (p : α → Bool) (a : α)
    (h : p a = true) (n : ℕ) :
    (List.replicate n a).filter p = List.replicate n a := by
  induction n with
  | zero => rfl
  | succ n ih => simp [List.replicate_succ, List.filter_cons, h, ih]

theorem filter_replicate_neg {α : Type} (p : α → Bool) (a : α)
    (h : p a = false) (n : ℕ) :
    (List.replicate n a).filter p = [] := by
  induction n with
  | zero => rfl
  | succ n ih => simp [List.replicate_succ, List.filter_cons, h, ih]

theorem coeffCells_mkFitRow_none (load : List ℚ) (lmin lmax : Option ℚ)
    (pts : ℕ) :
    coeffCells (mkFitRow load none lmin lmax pts) = List.replicate 5 Cell.null := by
  show ((series aLabels none
      ++ (loadSeries load none lmin lmax pts ++ hrSeries none lmin lmax pts)).take 5).map
      Prod.snd = _
  rw [List.take_left' (by rfl)]
  rfl

theorem acceptedParams_rank_le (load : List ℚ) (c : List ℚ) (r : ℕ)
    (h : ¬ 1 < r) : acceptedParams load (Except.ok (c, r)) = none := by
  simp only [acceptedParams]
  rw [if_neg h, ite_self]

theorem acceptedParams_error (load : List ℚ) (e : Unit) :
    acceptedParams load (Except.error e) = none := by
  simp only [acceptedParams]
  rw [ite_self]

theorem extract_fit_of_params_none (load hr : List ℚ) (o pts : ℕ)
    (fit : Except Unit (List ℚ × ℕ)) (h : acceptedParams load fit = none) :
    extract_fit load hr o pts fit
      = Except.ok (mkFitRow load none (boundMin load) (boundMax load) pts) := by
  unfold extract_fit
  rw [h]

/-!
## Claim theorems
-/

unseal Rat.add Rat.mul Rat.inv Rat.sub

set_option maxRecDepth 40000

/-- Claim C9: for every positive integer `years`, the regime filter derives
`min_samples = floor(years * 8760 / 1000)` and the exclusion threshold
`floor(years * 8760 / 100)`; for `years = 1` these equal `8` and `87`. -/
theorem c9_regime_filter_params (years : ℕ) (h : 0 < years) :
    min_samples years = Nat.floor (((years * 8760 : ℕ) : ℚ) / ((1000 : ℕ) : ℚ)) ∧
    points_threshold years = Nat.floor (((years * 8760 : ℕ) : ℚ) / ((100 : ℕ) : ℚ)) ∧
    min_samples 1 = 8 ∧ points_threshold 1 = 87 := by
  refine ⟨?_, ?_, rfl, rfl⟩
  · rw [Nat.floor_div_nat, Nat.floor_natCast]; rfl
  · rw [Nat.floor_div_nat, Nat.floor_natCast]; rfl

/-- Witness for C9 at `years = 1`. -/
theorem c9_regime_filter_params_witness :
    min_samples 1 = 8 ∧ points_threshold 1 = 87 :=
  ⟨(c9_regime_filter_params 1 (by decide)).2.2.1,
   (c9_regime_filter_params 1 (by decide)).2.2.2⟩

/-- Counterexample for C1: the code aggregates on the prefix before a
hyphen (`unit_id.str.split('-').str[0]`), so sub-unit fit rows with ids
`7_0` and `7_1` and per-row minima `7.2` and `8.9` are not aggregated — the
keys stay `7_0` and `7_1` and no aggregate `7` with representative minimum
`7.2` exists, contradicting the claim. -/
theorem c1_underscore_ids_cex :
    ccMinHr ccUnderscoreTable = [("7_0", 36 / 5), ("7_1", 89 / 10)] ∧
    groupMin (ccMinHr ccUnderscoreTable) = [("7_0", 36 / 5), ("7_1", 89 / 10)] ∧
    ((groupMin (ccMinHr ccUnderscoreTable)).map Prod.fst).any
      (fun u => decide (u = "7")) = false := by decide

/-- Claim C1 (amended): the CC aggregation key is the prefix of the fit id
before the hyphen separator; for fit rows `7-0` and `7-1` with per-row
minima `7.2` and `9.5`, the aggregate cc id `7` has representative minimum
`7.2` (the minimum over its rows), and rejection uses only the upper hard
cutoff (default `9`, the lower hard threshold unset): the unit `5` with
minimum `20 > 9` is invalidated while both rows of unit `7` survive — even
the row whose own minimum `9.5` exceeds the cutoff. -/
theorem c1_cc_hyphen_aggregation :
    groupMin (ccMinHr ccHyphenTable) = [("7", 36 / 5), ("5", 20)] ∧
    trimVals ((groupMin (ccMinHr ccHyphenTable)).map Prod.snd) (none, some 9)
      = [36 / 5] ∧
    listVar (trimVals ((groupMin (ccMinHr ccHyphenTable)).map Prod.snd)
      (none, some 9)) = 0 ^ 2 ∧
    filer_CCs ccHyphenTable 9 2 0 =
      [constRow "7-0" (36 / 5), constRow "7-1" (19 / 2), nullRow "5"] := by decide

/-- Counterexample for C2: with order `4` and the five distinct load points
`1, ..., 5` — fewer than `order + 2 = 6` distinct points, residual degrees
of freedom `0` — the reported rank is `min 5 (4+1) = 5 > 1`, so `extract_fit`
accepts the fit and returns all five coefficients, not missing values. -/
theorem c2_dof_cex :
    [(1 : ℚ), 2, 3, 4, 5].dedup.length < 4 + 2 ∧
    polyfitRank [(1 : ℚ), 2, 3, 4, 5] 4 = 5 ∧
    coeffCells (okRow (extract_fit [(1 : ℚ), 2, 3, 4, 5] [7, 7, 7, 7, 7] 4 5
      (Except.ok ([0, 0, 0, 0, 7], polyfitRank [(1 : ℚ), 2, 3, 4, 5] 4))))
      = [Cell.num 0, Cell.num 0, Cell.num 0, Cell.num 0, Cell.num 7] := by decide

/-- Claim C2 (amended): `extract_fit` accepts a fit (produces coefficients)
only if the rank reported by the least-squares solve exceeds `1`; since the
rank is `min (#distinct load values) (order + 1)`, every input with fewer
than `2` distinct load points yields all-missing coefficients. -/
theorem c2_rank_acceptance (load hr : List ℚ) (pts : ℕ) (c : List ℚ)
    (fitres : Except Unit (List ℚ × ℕ)) (row : Row) :
    (load.dedup.length < 2 →
      coeffCells (okRow (extract_fit load hr 4 pts
        (Except.ok (c, polyfitRank load 4)))) = List.replicate 5 Cell.null) ∧
    (extract_fit load hr 4 pts fitres = Except.ok row →
      coeffCells row ≠ List.replicate 5 Cell.null →
      ∃ cs r, fitres = Except.ok (cs, r) ∧ 1 < r) := by
  constructor
  · intro hd
    have hrank : ¬ (1 < polyfitRank load 4) := by
      have h1 : polyfitRank load 4 ≤ load.dedup.length := Nat.min_le_left _ _
      omega
    rw [extract_fit_of_params_none load hr 4 pts _
      (acceptedParams_rank_le load c _ hrank)]
    show coeffCells (mkFitRow load none _ _ pts) = _
    exact coeffCells_mkFitRow_none _ _ _ _
  · intro hok hne
    cases fitres with
    | error e =>
      exfalso
      apply hne
      rw [extract_fit_of_params_none load hr 4 pts _
        (acceptedParams_error load e)] at hok
      cases hok
      exact coeffCells_mkFitRow_none _ _ _ _
    | ok p =>
      obtain ⟨cs, r⟩ := p
      by_cases hr1 : 1 < r
      · exact ⟨cs, r, rfl, hr1⟩
      · exfalso
        apply hne
        rw [extract_fit_of_params_none load hr 4 pts _
          (acceptedParams_rank_le load cs _ hr1)] at hok
        cases hok
        exact coeffCells_mkFitRow_none _ _ _ _

/-- Witness for C2 (amended) on the single distinct load value `3`. -/
theorem c2_rank_acceptance_witness :
    coeffCells (okRow (extract_fit [(3 : ℚ), 3] [1, 2] 4 5
      (Except.ok ([1, 2, 3, 4, 5], polyfitRank [(3 : ℚ), 3] 4))))
      = List.replicate 5 Cell.null :=
  (c2_rank_acceptance [(3 : ℚ), 3] [1, 2] 5 [1, 2, 3, 4, 5]
    (Except.error ()) []).1 (by decide)

/-- Claim C6 (code bug): `extract_fit` hard-codes the five coefficient
labels `a4, ..., a0`, so for any order other than `4` — here order `2` with
three distinct points, an accepted rank-`3` fit — building the coefficient
series raises a length-mismatch `ValueError` instead of producing a row
labelled `a2, a1, a0`. -/
theorem c6_hardcoded_labels_bug :
    1 < polyfitRank [(1 : ℚ), 2, 3] 2 ∧
    errMsg (extract_fit [(1 : ℚ), 2, 3] [1, 2, 3] 2 5
      (Except.ok ([0, 1, 0], polyfitRank [(1 : ℚ), 2, 3] 2)))
      = some "ValueError" := by decide

theorem outOfBand_some_some (a b x : ℚ) :
    outOfBand (some a) (some b) x = true ↔ (x < a ∨ b < x) := by
  simp [outOfBand]

theorem mem_min_hr_filter (pop : List (String × ℚ)) (k sd : ℚ)
    (thr : Option ℚ × Option ℚ) (u : String) :
    u ∈ min_hr_filter pop k thr sd ↔
      ∃ x, (u, x) ∈ pop ∧
        outOfBand (lowEdge (trimVals (pop.map Prod.snd) thr) k sd thr)
          (highEdge (trimVals (pop.map Prod.snd) thr) k sd thr) x = true := by
  unfold min_hr_filter
  constructor
  · intro hu
    rcases List.mem_map.mp hu with ⟨p, hp, hpu⟩
    rcases List.mem_filter.mp hp with ⟨hmem, hcond⟩
    refine ⟨p.2, ?_, hcond⟩
    rw [← hpu, Prod.mk.eta]
    exact hmem
  · rintro ⟨x, hx, hcond⟩
    exact List.mem_map.mpr ⟨(u, x), List.mem_filter.mpr ⟨hx, hcond⟩, rfl⟩

/-- Counterexample for C3: for the population `{0, 4, 5.5, 5.5}` with mean
`μ = 15/4` and standard deviation `σ = 9/4`, multiplier `k = 1` and an upper
hard threshold `5`, the value `0` lies strictly below `μ - kσ = 3/2` — outside
the band whose lower edge the claim says stays the statistically derived one —
yet the code does not mark `u0` failed: the threshold first trims the
population to `{0, 4}` (mean `2`, standard deviation `2`), so the code's
lower edge is `2 - 1 * 2 = 0` and only the two values above the cutoff fail. -/
theorem c3_full_population_band_cex :
    listMean (thrPop.map Prod.snd) = 15 / 4 ∧
    listVar (thrPop.map Prod.snd) = (9 / 4) ^ 2 ∧
    ((0 : ℚ) < 15 / 4 - 1 * (9 / 4)) ∧
    trimVals (thrPop.map Prod.snd) (none, some 5) = [0, 4] ∧
    listVar (trimVals (thrPop.map Prod.snd) (none, some 5)) = 2 ^ 2 ∧
    min_hr_filter thrPop 1 (none, some 5) 2 = ["uB1", "uB2"] := by decide

/-- Claim C3 (amended): with `σ` the standard deviation of the population
*after* values beyond any supplied hard threshold have been removed
(`0 ≤ sd`, `sd ^ 2` = variance of the trimmed values), outlier rejection
marks failed exactly the units whose minimum lies strictly outside the band:
with no thresholds the band is `[μ - kσ, μ + kσ]` of the whole population;
a hard threshold replaces only its own edge outright, the other edge being
the statistically derived one of the trimmed population. -/
theorem c3_band_characterization (pop : List (String × ℚ)) (k sd : ℚ)
    (thr : Option ℚ × Option ℚ) (u : String)
    (hsd : 0 ≤ sd)
    (hvar : sd ^ 2 = listVar (trimVals (pop.map Prod.snd) thr))
    (hne : trimVals (pop.map Prod.snd) thr ≠ []) :
    (thr = (none, none) →
      (trimVals (pop.map Prod.snd) thr = pop.map Prod.snd ∧
       (u ∈ min_hr_filter pop k thr sd ↔
        ∃ x, (u, x) ∈ pop ∧
          (x < listMean (trimVals (pop.map Prod.snd) thr) - k * sd ∨
           listMean (trimVals (pop.map Prod.snd) thr) + k * sd < x)))) ∧
    (∀ t, thr = (none, some t) →
      (u ∈ min_hr_filter pop k thr sd ↔
       ∃ x, (u, x) ∈ pop ∧
         (x < listMean (trimVals (pop.map Prod.snd) thr) - k * sd ∨ t < x))) ∧
    (∀ t, thr = (some t, none) →
      (u ∈ min_hr_filter pop k thr sd ↔
       ∃ x, (u, x) ∈ pop ∧
         (x < t ∨ listMean (trimVals (pop.map Prod.snd) thr) + k * sd < x))) := by
  have hemp : (trimVals (pop.map Prod.snd) thr).isEmpty = false :=
    List.isEmpty_eq_false.mpr hne
  refine ⟨?_, ?_, ?_⟩
  · rintro rfl
    refine ⟨rfl, ?_⟩
    rw [mem_min_hr_filter]
    apply exists_congr
    intro x
    rw [show lowEdge (trimVals (pop.map Prod.snd) (none, none)) k sd (none, none)
        = some (listMean (trimVals (pop.map Prod.snd) (none, none)) - k * sd) by
      simp [lowEdge, hemp]]
    rw [show highEdge (trimVals (pop.map Prod.snd) (none, none)) k sd (none, none)
        = some (listMean (trimVals (pop.map Prod.snd) (none, none)) + k * sd) by
      simp [highEdge, hemp]]
    rw [outOfBand_some_some]
  · rintro t rfl
    rw [mem_min_hr_filter]
    apply exists_congr
    intro x
    rw [show lowEdge (trimVals (pop.map Prod.snd) (none, some t)) k sd (none, some t)
        = some (listMean (trimVals (pop.map Prod.snd) (none, some t)) - k * sd) by
      simp [lowEdge, hemp]]
    rw [show highEdge (trimVals (pop.map Prod.snd) (none, some t)) k sd (none, some t)
        = some t by simp [highEdge]]
    rw [outOfBand_some_some]
  · rintro t rfl
    rw [mem_min_hr_filter]
    apply exists_congr
    intro x
    rw [show lowEdge (trimVals (pop.map Prod.snd) (some t, none)) k sd (some t, none)
        = some t by simp [lowEdge]]
    rw [show highEdge (trimVals (pop.map Prod.snd) (some t, none)) k sd (some t, none)
        = some (listMean (trimVals (pop.map Prod.snd) (some t, none)) + k * sd) by
      simp [highEdge, hemp]]
    rw [outOfBand_some_some]

/-- Witness for C3 (amended) on the population `{w1 ↦ 10, w2 ↦ 12}` with
multiplier `2` and standard deviation `1`. -/
theorem c3_band_characterization_witness :
    "w1" ∈ min_hr_filter [("w1", 10), ("w2", 12)] 2 (none, none) 1 ↔
      ∃ x, (("w1", x) : String × ℚ) ∈ [(("w1" : String), (10 : ℚ)), ("w2", 12)] ∧
        (x < listMean (trimVals ([(("w1" : String), (10 : ℚ)), ("w2", 12)].map Prod.snd)
            (none, none)) - 2 * 1 ∨
         listMean (trimVals ([(("w1" : String), (10 : ℚ)), ("w2", 12)].map Prod.snd)
            (none, none)) + 2 * 1 < x) :=
  ((c3_band_characterization [("w1", 10), ("w2", 12)] 2 1 (none, none) "w1"
    (by norm_num) (by decide) (by decide)).1 rfl).2

/-- Counterexample for C4: outlier rejection is not idempotent.  On the
nine-unit table with minima `40..46, 5, 81` (mean `43`, standard deviation
`18`), multiplier `1` and minimum population `3`, the first pass rejects
`5` and `81`; the surviving minima `40..46` have mean `43` and standard
deviation `2`, so a second pass with the same parameters rejects `40` and
`46` as well — the second application changes the table.  The `sd`
arguments `18` and `2` are exactly the standard deviations of the two
populations (first two conjuncts). -/
theorem c4_not_idempotent_cex :
    listVar ((minHrSeries nineTable).map Prod.snd) = 18 ^ 2 ∧
    listVar ((minHrSeries (filterGroupFits "Boiler (Coal)" nineTable 3 9 1
      (none, none) 18)).map Prod.snd) = 2 ^ 2 ∧
    filterGroupFits "Boiler (Coal)"
        (filterGroupFits "Boiler (Coal)" nineTable 3 9 1 (none, none) 18)
        3 9 1 (none, none) 2
      ≠ filterGroupFits "Boiler (Coal)" nineTable 3 9 1 (none, none) 18 := by
  decide

/-- Claim C4 (amended): a second application of outlier rejection with the
same parameters re-derives the band from the surviving minima and can
reject further units; it makes no further changes whenever the recomputed
band rejects no unit — whenever `_min_hr_filter` returns no failed units,
`_filter` is the identity. -/
theorem c4_rerun_noop (g : Table) (k sd : ℚ) (thr : Option ℚ × Option ℚ)
    (h : min_hr_filter (minHrSeries g) k thr sd = []) :
    FitFilter_filter g k thr sd = g := by
  unfold FitFilter_filter
  rw [h]
  simp

/-- Witness for C4 (amended): the two-unit table with minima `10`, `12`
(standard deviation `1`), multiplier `2`: the band `[9, 13]` rejects
nothing, so rejection — hence any repeated rejection — leaves the table
unchanged. -/
theorem c4_rerun_noop_witness :
    FitFilter_filter pairTable 2 (none, none) 1 = pairTable :=
  c4_rerun_noop pairTable 2 1 (none, none) (by decide)

theorem bigTable_minHrSeries :
    minHrSeries bigTable
      = List.replicate 80 ("uA", (10 : ℚ)) ++ List.replicate 20 ("uB", (20 : ℚ)) := by
  unfold bigTable minHrSeries
  rw [List.filterMap_append, List.filterMap_append]
  rw [filterMap_replicate_some _ _ ("uA", (10 : ℚ)) (by decide) 80,
      filterMap_replicate_some _ _ ("uB", (20 : ℚ)) (by decide) 20,
      filterMap_replicate_none _ _ (by decide) 50]
  simp

theorem bigTable_vals :
    trimVals ((List.replicate 80 ("uA", (10 : ℚ))
        ++ List.replicate 20 ("uB", (20 : ℚ))).map Prod.snd) (none, none)
      = List.replicate 80 (10 : ℚ) ++ List.replicate 20 (20 : ℚ) := by
  rw [List.map_append, List.map_replicate, List.map_replicate]
  rfl

theorem bigTable_mean :
    listMean (List.replicate 80 (10 : ℚ) ++ List.replicate 20 (20 : ℚ)) = 12 := by
  unfold listMean
  rw [List.sum_append, List.sum_replicate, List.sum_replicate,
      List.length_append, List.length_replicate, List.length_replicate,
      nsmul_eq_mul, nsmul_eq_mul]
  norm_num

theorem bigTable_var :
    listVar (List.replicate 80 (10 : ℚ) ++ List.replicate 20 (20 : ℚ)) = 4 ^ 2 := by
  unfold listVar
  rw [List.map_append, List.map_replicate, List.map_replicate, bigTable_mean,
      List.sum_append, List.sum_replicate, List.sum_replicate,
      List.length_append, List.length_replicate, List.length_replicate,
      nsmul_eq_mul, nsmul_eq_mul]
  norm_num

theorem bigTable_failed :
    min_hr_filter (minHrSeries bigTable) 1 (none, none) 4
      = List.replicate 20 "uB" := by
  rw [bigTable_minHrSeries]
  simp only [min_hr_filter]
  rw [bigTable_vals]
  rw [show lowEdge (List.replicate 80 (10 : ℚ) ++ List.replicate 20 (20 : ℚ))
      1 4 (none, none) = some 8 by
    simp only [lowEdge]
    rw [if_neg (by decide), bigTable_mean]
    norm_num]
  rw [show highEdge (List.replicate 80 (10 : ℚ) ++ List.replicate 20 (20 : ℚ))
      1 4 (none, none) = some 16 by
    simp only [highEdge]
    rw [if_neg (by decide), bigTable_mean]
    norm_num]
  rw [List.filter_append,
      filter_replicate_neg _ _ (by decide) 80,
      filter_replicate_pos _ _ (by decide) 20]
  simp

theorem bigTable_filter_ne :
    FitFilter_filter bigTable 1 (none, none) 4 ≠ bigTable := by
  have hout : FitFilter_filter bigTable 1 (none, none) 4
      = List.replicate 80 (constRow "uA" 10)
        ++ (List.replicate 20 (nullRow "uB")
        ++ List.replicate 50 (nullRow "uN")) := by
    simp only [FitFilter_filter]
    rw [bigTable_failed]
    show bigTable.map _ = _
    unfold bigTable
    rw [List.map_append, List.map_append, List.map_replicate,
        List.map_replicate, List.map_replicate]
    decide
  intro h
  rw [hout] at h
  have h2 := List.append_cancel_left h
  have h3 := congrArg List.head? h2
  revert h3
  decide

/-- Counterexample for C5: on a 150-row fit table with exactly 100 fitted
units (80 minima of `10`, 20 of `20`, standard deviation `4`) and the
default minimum population `100`, the group is skipped — `filter` requires
strictly more than `min_units` fitted units — even though applying the
rejection with multiplier `1` would invalidate the 20 units at `20`; so the
claim's 150-unit example is not filtered at all. -/
theorem c5_exact_min_units_cex :
    bigTable.length = 150 ∧ fitUnits bigTable = 100 ∧
    filterGroupFits "Boiler (Coal)" bigTable 100 9 1 (none, none) 4 = bigTable ∧
    FitFilter_filter bigTable 1 (none, none) 4 ≠ bigTable := by
  refine ⟨by decide, by decide, ?_, bigTable_filter_ne⟩
  unfold filterGroupFits
  rw [if_neg ?_]
  have h : fitUnits bigTable = 100 := by decide
  omega

/-- Claim C5 (amended): a group whose number of fitted units is at most the
minimum population size (`fit_units > min_units` fails, default `100`) is
skipped entirely and passes through unchanged — so a group of 150 units of
which 50 have missing coefficients (exactly 100 fitted units) is skipped at
the default; with `min_units = 99` the rejection is applied, and the
population statistics use exactly the 100 units with defined minima. -/
theorem c5_population_gate (g : Table) (gt : String) (mu : ℕ)
    (co k sd : ℚ) (thr : Option ℚ × Option ℚ) (h : fitUnits g ≤ mu) :
    filterGroupFits gt g mu co k thr sd = g ∧
    ((minHrSeries bigTable).length = 100 ∧
     filterGroupFits "Boiler (Coal)" bigTable 99 9 1 (none, none) 4
       = FitFilter_filter bigTable 1 (none, none) 4) := by
  refine ⟨?_, ?_, ?_⟩
  · unfold filterGroupFits
    rw [if_neg (by omega)]
  · rw [bigTable_minHrSeries]
    simp
  · unfold filterGroupFits
    have hf : fitUnits bigTable = 100 := by decide
    rw [if_pos (by omega), if_neg (by decide)]

/-- Witness for C5 (amended): a two-unit group with `min_units = 5` passes
through unchanged. -/
theorem c5_population_gate_witness :
    filterGroupFits "CT (NG)" pairTable 5 9 2 (none, none) 0 = pairTable :=
  ((c5_population_gate pairTable "CT (NG)" 5 9 2 0 (none, none) (by decide))).1

theorem linspace_length (a b : ℚ) (n : ℕ) : (linspace a b n).length = n := by
  unfold linspace
  split
  · rw [List.length_map, List.length_range]
  · rw [List.length_map, List.length_range]

theorem linspace_getD (a b : ℚ) (n i : ℕ) (h2 : ¬ n ≤ 1) (hi : i < n) :
    (linspace a b n).getD i 0 = a + (b - a) * i / ((n : ℚ) - 1) := by
  unfold linspace
  rw [if_neg h2, List.getD_eq_getElem?_getD, List.getElem?_map,
      List.getElem?_range hi]
  rfl

theorem linspace_spacing (a b : ℚ) (i : ℕ) (h : i + 1 < 100) :
    (linspace a b 100).getD (i + 1) 0 - (linspace a b 100).getD i 0
      = (b - a) / 99 := by
  rw [linspace_getD a b 100 (i + 1) (by omega) h,
      linspace_getD a b 100 i (by omega) (by omega)]
  push_cast
  ring

theorem get_hr_min_some (row : Row) (pts : ℕ) (s : List ℚ)
    (h : rowSamples row pts = some s) :
    get_hr_min row pts
      = if listMin s < 9 / 2 then none else some (listMin s) := by
  unfold get_hr_min
  rw [h]

theorem get_hr_min_of_no_samples (row : Row) (pts : ℕ)
    (h : rowSamples row pts = none) : get_hr_min row pts = none := by
  unfold get_hr_min
  rw [h]

theorem rowSamples_structure (row : Row) (pts : ℕ) (s : List ℚ)
    (h : rowSamples row pts = some s) :
    ∃ lmin lmax cs, (cellAt row "load_min").toQ = some lmin ∧
      (cellAt row "load_max").toQ = some lmax ∧
      s = (linspace lmin lmax pts).map (polyval cs) := by
  simp only [rowSamples] at h
  by_cases hall : (row.filter (fun q => strHasPrefix "a" q.1)).all
      (fun q => q.2.toQ.isSome) = true
  · rw [if_pos hall] at h
    cases hmin : (cellAt row "load_min").toQ with
    | none => rw [hmin] at h; cases h
    | some lmin =>
      cases hmax : (cellAt row "load_max").toQ with
      | none => rw [hmin, hmax] at h; cases h
      | some lmax =>
        rw [hmin, hmax] at h
        injection h with h2
        exact ⟨lmin, lmax, _, rfl, rfl, h2.symm⟩
  · rw [if_neg hall] at h
    cases h

/-- Claim C7: a unit's minimum heat rate is the minimum of the polynomial
resampled at 100 evenly spaced points (step `(load_max - load_min)/99`)
between `load_min` and `load_max`; a sampled minimum below `4.5` is
discarded as no minimum, and a row with any missing coefficient contributes
no minimum. -/
theorem c7_hr_min_characterization (row : Row) (m : ℚ) :
    ((∃ p ∈ row, strHasPrefix "a" p.1 = true ∧ p.2.toQ = none) →
      rowSamples row 100 = none ∧ get_hr_min row 100 = none) ∧
    (get_hr_min row 100 = some m →
      ∃ s, rowSamples row 100 = some s ∧ m ∈ s ∧ (∀ x ∈ s, m ≤ x) ∧
        (9 : ℚ) / 2 ≤ m ∧ s.length = 100) ∧
    (∀ s, rowSamples row 100 = some s → listMin s < 9 / 2 →
      get_hr_min row 100 = none) ∧
    (∀ s, rowSamples row 100 = some s →
      ∃ lmin lmax cs, (cellAt row "load_min").toQ = some lmin ∧
        (cellAt row "load_max").toQ = some lmax ∧
        s = (linspace lmin lmax 100).map (polyval cs)) ∧
    (∀ (a b : ℚ) (i : ℕ), i + 1 < 100 →
      (linspace a b 100).getD (i + 1) 0 - (linspace a b 100).getD i 0
        = (b - a) / 99) := by
  refine ⟨?_, ?_, ?_, ?_, ?_⟩
  · rintro ⟨p, hp, hpa, hq⟩
    have hparams : p ∈ row.filter (fun q => strHasPrefix "a" q.1) :=
      List.mem_filter.mpr ⟨hp, hpa⟩
    have hall : (row.filter (fun q => strHasPrefix "a" q.1)).all
        (fun q => q.2.toQ.isSome) = false := by
      cases hb : (row.filter (fun q => strHasPrefix "a" q.1)).all
          (fun q => q.2.toQ.isSome) with
      | false => rfl
      | true =>
        exfalso
        have h2 := List.all_eq_true.mp hb p hparams
        rw [hq] at h2
        simp at h2
    have hs : rowSamples row 100 = none := by
      simp only [rowSamples]
      rw [hall]
      simp
    exact ⟨hs, get_hr_min_of_no_samples row 100 hs⟩
  · intro hm
    cases hrs : rowSamples row 100 with
    | none => rw [get_hr_min_of_no_samples row 100 hrs] at hm; cases hm
    | some s =>
      rw [get_hr_min_some row 100 s hrs] at hm
      by_cases hlt : listMin s < 9 / 2
      · rw [if_pos hlt] at hm; cases hm
      · rw [if_neg hlt] at hm
        injection hm with hm2
        obtain ⟨lmin, lmax, cs, _, _, hsval⟩ :=
          rowSamples_structure row 100 s hrs
        have hlen : s.length = 100 := by
          rw [hsval, List.length_map, linspace_length]
        have hne : s ≠ [] := by
          intro hnil
          rw [hnil] at hlen
          cases hlen
        refine ⟨s, rfl, ?_, ?_, ?_, hlen⟩
        · rw [← hm2]; exact listMin_mem s hne
        · intro x hx; rw [← hm2]; exact listMin_le s x hx
        · rw [← hm2]; exact le_of_not_lt hlt
  · intro s hrs hlt
    rw [get_hr_min_some row 100 s hrs, if_pos hlt]
  · intro s hrs
    exact rowSamples_structure row 100 s hrs
  · intro a b i h
    exact linspace_spacing a b i h

/-- Witness for C7: the row with a missing constant coefficient contributes
no minimum. -/
theorem c7_hr_min_characterization_witness :
    rowSamples missingCoeffRow 100 = none ∧
    get_hr_min missingCoeffRow 100 = none :=
  (c7_hr_min_characterization missingCoeffRow 0).1
    ⟨("a0", Cell.null), by decide, by decide, by decide⟩

theorem series_none_val (labels : List String) (pr : String × Cell)
    (h : pr ∈ series labels none) : pr.2 = Cell.null := by
  rcases List.mem_map.mp h with ⟨l, _, hl⟩
  rw [← hl]

theorem setEntry_null_val (row : Row) (name : String) (pr : String × Cell)
    (hrow : ∀ q ∈ row, q.2 = Cell.null)
    (h : pr ∈ setEntry row name Cell.null) : pr.2 = Cell.null := by
  unfold setEntry at h
  by_cases hc : row.any (fun p => decide (p.1 = name)) = true
  · rw [if_pos hc] at h
    rcases List.mem_map.mp h with ⟨q, hq, hql⟩
    by_cases hqn : q.1 = name
    · rw [if_pos hqn] at hql; rw [← hql]
    · rw [if_neg hqn] at hql; rw [← hql]; exact hrow q hq
  · rw [if_neg hc] at h
    rcases List.mem_append.mp h with h2 | h2
    · exact hrow pr h2
    · rw [List.mem_singleton.mp h2]

/-- Claim C8: with an empty load array the domain bounds are undefined and
no fit is attempted — the result does not depend on the solver outcome and
every cell except `total_load` (the sum `0` of no loads) is missing; and a
raising solver is recovered: the call still returns a row, with all
coefficients missing — the exception is never propagated. -/
theorem c8_empty_and_error_recovery (load hr hr2 : List ℚ) (o o2 pts pts2 : ℕ)
    (e : Unit) (f g : Except Unit (List ℚ × ℕ)) (pr : String × Cell) :
    (extract_fit [] hr o pts f = extract_fit [] hr o pts g) ∧
    (pr ∈ okRow (extract_fit [] hr o pts f) → pr.1 ≠ "total_load" →
      pr.2 = Cell.null) ∧
    (isOkE (extract_fit load hr2 o2 pts2 (Except.error e)) = true) ∧
    (coeffCells (okRow (extract_fit load hr2 o2 pts2 (Except.error e)))
      = List.replicate 5 Cell.null) := by
  have hnil : ∀ fit : Except Unit (List ℚ × ℕ), acceptedParams [] fit = none := by
    intro fit
    rfl
  have hempty : extract_fit [] hr o pts f
      = Except.ok (mkFitRow [] none none none pts) :=
    extract_fit_of_params_none [] hr o pts f (hnil f)
  have herr : extract_fit load hr2 o2 pts2 (Except.error e)
      = Except.ok (mkFitRow load none (boundMin load) (boundMax load) pts2) :=
    extract_fit_of_params_none load hr2 o2 pts2 _ (acceptedParams_error load e)
  refine ⟨?_, ?_, ?_, ?_⟩
  · rw [hempty, extract_fit_of_params_none [] hr o pts g (hnil g)]
    rfl
  · intro hm hname
    rw [hempty] at hm
    show pr.2 = Cell.null
    have hm2 : pr ∈ mkFitRow [] none none none pts := hm
    unfold mkFitRow at hm2
    rcases List.mem_append.mp hm2 with h3 | h3
    rcases List.mem_append.mp h3 with h4 | h4
    · exact series_none_val aLabels pr h4
    · unfold loadSeries at h4
      rcases List.mem_append.mp h4 with h5 | h5
      · refine setEntry_null_val _ "load_max" pr ?_ h5
        intro q hq
        refine setEntry_null_val _ "load_min" q ?_ hq
        intro q2 hq2
        exact series_none_val _ q2 (by
          have : fitLoadRange none none none pts = none := rfl
          rwa [this] at hq2)
      · rcases List.mem_cons.mp h5 with h6 | h6
        · exfalso; apply hname; rw [h6]
        · rw [List.mem_singleton.mp h6]
    · unfold hrSeries at h3
      exact series_none_val _ pr (by
        have : fitHrRange none (fitLoadRange none none none pts) = none := rfl
        rwa [this] at h3)
  · rw [herr]; rfl
  · rw [herr]
    show coeffCells (mkFitRow load none _ _ pts2) = _
    exact coeffCells_mkFitRow_none _ _ _ _

/-- Witness for C8 on `extract_fit` of an empty load array with a raising
solver: the `a4` coefficient cell is null. -/
theorem c8_empty_and_error_recovery_witness :
    (("a4", Cell.null) : String × Cell).2 = Cell.null :=
  (c8_empty_and_error_recovery [] [] [] 4 4 5 5 () (Except.error ())
    (Except.error ()) ("a4", Cell.null)).2.1 (by decide) (by decide)

/-- Claim C10: outlier rejection (plain and CC) preserves the number of
rows; every output row is its input row either unchanged or with exactly
the `filter_cols` (names starting `a`/`heat_rate`/`load` except
`load_min`/`load_max`) nulled; rows of non-failed units are unchanged; and
`load_min`, `load_max`, `total_load`, `min_gen_perc`, `unit_id` and the
metadata columns are never filter columns, so they keep their values on
every row. -/
theorem c10_frame_conditions (g : Table) (k sd cutoff : ℚ)
    (thr : Option ℚ × Option ℚ) (i : ℕ) (row orig : Row) (p : String × Cell) :
    ((FitFilter_filter g k thr sd).length = g.length ∧
     (filer_CCs g cutoff k sd).length = g.length) ∧
    ((FitFilter_filter g k thr sd)[i]? = some row → g[i]? = some orig →
      row = orig ∨ row = nullFilterCols orig) ∧
    ((filer_CCs g cutoff k sd)[i]? = some row → g[i]? = some orig →
      row = orig ∨ row = nullFilterCols orig) ∧
    ((FitFilter_filter g k thr sd)[i]? = some row → g[i]? = some orig →
      rowUnitId orig ∉ min_hr_filter (minHrSeries g) k thr sd → row = orig) ∧
    ((filer_CCs g cutoff k sd)[i]? = some row → g[i]? = some orig →
      ccId orig ∉ min_hr_filter (groupMin (ccMinHr g)) k (none, some cutoff) sd →
      row = orig) ∧
    (p ∈ orig → filterColsPred p.1 = false → p ∈ nullFilterCols orig) ∧
    (p ∈ orig → filterColsPred p.1 = true →
      (p.1, Cell.null) ∈ nullFilterCols orig) ∧
    ((nullFilterCols orig).map Prod.fst = orig.map Prod.fst) ∧
    (["load_min", "load_max", "total_load", "min_gen_perc", "unit_id",
      "latitude", "longitude", "state", "EPA_region", "NERC_region",
      "unit_type", "fuel_type", "group_type"].all
        (fun c => !(filterColsPred c)) = true ∧
     ["a4", "a3", "a2", "a1", "a0", "load_2", "heat_rate(load_min)"].all
        filterColsPred = true) := by
  have hmapF : ∀ j : ℕ, (FitFilter_filter g k thr sd)[j]?
      = Option.map (fun r =>
          if (min_hr_filter (minHrSeries g) k thr sd).any
              (fun u => decide (u = rowUnitId r)) then nullFilterCols r
          else r) g[j]? := by
    intro j
    simp only [FitFilter_filter]
    rw [List.getElem?_map]
  have hmapC : ∀ j : ℕ, (filer_CCs g cutoff k sd)[j]?
      = Option.map (fun r =>
          if (min_hr_filter (groupMin (ccMinHr g)) k (none, some cutoff) sd).any
              (fun u => decide (u = ccId r)) then nullFilterCols r
          else r) g[j]? := by
    intro j
    simp only [filer_CCs]
    rw [List.getElem?_map]
  have hnotfail : ∀ (failed : List String) (uid : String), uid ∉ failed →
      failed.any (fun u => decide (u = uid)) = false := by
    intro failed uid hnot
    cases hb : failed.any (fun u => decide (u = uid)) with
    | false => rfl
    | true =>
      exfalso
      rcases List.any_eq_true.mp hb with ⟨u, hu, hdec⟩
      exact hnot (by rwa [of_decide_eq_true hdec] at hu)
  refine ⟨⟨?_, ?_⟩, ?_, ?_, ?_, ?_, ?_, ?_, ?_, by decide, by decide⟩
  · simp only [FitFilter_filter]
    exact List.length_map _ _
  · simp only [filer_CCs]
    exact List.length_map _ _
  · intro h1 h2
    rw [hmapF i, h2] at h1
    injection h1 with h3
    have h4 : (if (min_hr_filter (minHrSeries g) k thr sd).any
        (fun u => decide (u = rowUnitId orig)) = true then nullFilterCols orig
        else orig) = row := h3
    rw [← h4]
    by_cases hc : (min_hr_filter (minHrSeries g) k thr sd).any
        (fun u => decide (u = rowUnitId orig)) = true
    · rw [if_pos hc]; exact Or.inr rfl
    · rw [if_neg hc]; exact Or.inl rfl
  · intro h1 h2
    rw [hmapC i, h2] at h1
    injection h1 with h3
    have h4 : (if (min_hr_filter (groupMin (ccMinHr g)) k (none, some cutoff) sd).any
        (fun u => decide (u = ccId orig)) = true then nullFilterCols orig
        else orig) = row := h3
    rw [← h4]
    by_cases hc : (min_hr_filter (groupMin (ccMinHr g)) k (none, some cutoff) sd).any
        (fun u => decide (u = ccId orig)) = true
    · rw [if_pos hc]; exact Or.inr rfl
    · rw [if_neg hc]; exact Or.inl rfl
  · intro h1 h2 hnot
    rw [hmapF i, h2] at h1
    injection h1 with h3
    have h4 : (if (min_hr_filter (minHrSeries g) k thr sd).any
        (fun u => decide (u = rowUnitId orig)) = true then nullFilterCols orig
        else orig) = row := h3
    rw [← h4, hnotfail _ _ hnot]
    rfl
  · intro h1 h2 hnot
    rw [hmapC i, h2] at h1
    injection h1 with h3
    have h4 : (if (min_hr_filter (groupMin (ccMinHr g)) k (none, some cutoff) sd).any
        (fun u => decide (u = ccId orig)) = true then nullFilterCols orig
        else orig) = row := h3
    rw [← h4, hnotfail _ _ hnot]
    rfl
  · intro hp hpred
    refine List.mem_map.mpr ⟨p, hp, ?_⟩
    rw [if_neg (by rw [hpred]; exact Bool.false_ne_true)]
  · intro hp hpred
    refine List.mem_map.mpr ⟨p, hp, ?_⟩
    rw [if_pos hpred]
  · unfold nullFilterCols
    rw [List.map_map]
    refine List.map_congr_left ?_
    intro q _
    by_cases hq : filterColsPred q.1 = true
    · show (if filterColsPred q.1 = true then (q.1, Cell.null) else q).1 = q.1
      rw [if_pos hq]
    · show (if filterColsPred q.1 = true then (q.1, Cell.null) else q).1 = q.1
      rw [if_neg hq]

/-- Witness for C10: the non-filter column `load_min` keeps its value on a
nulled row. -/
theorem c10_frame_conditions_witness :
    (("load_min", Cell.num 1) : String × Cell)
      ∈ nullFilterCols (constRow "w1" 10) :=
  (c10_frame_conditions pairTable 2 1 0 (none, none) 0 (constRow "w1" 10)
    (constRow "w1" 10) ("load_min", Cell.num 1)).2.2.2.2.2.1
    (by decide) (by decide)

end NaTGenPD
